import Mathlib

/-!
Verification of the device-communication and state-synchronization engine of a
Homebridge ECHONET Lite air-conditioner plugin.

The definitions below are shallow embeddings of the TypeScript source:

* `src/platform.ts`  (class `EchoNetLiteAirconPlatform`): request queue
  (`processRequestQueue`), pending-request ledger and reply matcher
  (`handleEchoNetLiteMessage`), per-device throttling
  (`sendEchoNetRequestDirect`), retry controller (`getMetricValue`,
  `setMetricValue`, `calculateBackoffDelay`, `isRetryableError`),
  batched multi-EPC requests (`sendEchoNetMultiRequestDirect`),
  device state cache updates (`updateDeviceStateCache`,
  `pollDeviceStateSequential`, `initializeDeviceStateFromDevice`) and the
  value validity predicate (`isValidEchoNetValue`).
* `src/utils.ts`: the HomeKit/EchoNet mode conversions.
* `src/jobQueue.ts` (class `JobQueue`): the legacy job queue used by the
  Eolia accessory, built on the npm `queue` package.
* the accessory file (class `AirConditionerAccessory`): TTL read cache
  (`isCacheValid`, `getCurrentTemperature`, `getTargetTemperature`,
  `getOperationStateAndMode`, `setTargetHeatingCoolingState`).
* the constants file: `REQUEST_TIMING`, `DEFAULT_RETRY_CONFIG`.

Machine integers do not overflow in the modelled code paths (timestamps,
byte values, delays), so they are embedded as `Nat`.
-/

namespace EchoNetEngine

/-! ## String helpers

`hasSub needle hay` models JavaScript `String.prototype.includes`:
it decides whether `needle` occurs contiguously in `hay`.
`parseHexNat` models `parseInt(s, 16)` on well-formed hexadecimal strings
(all raw EPC values handled by the engine are such strings). -/

def startsWithChars : List Char → List Char → Bool
  | [], _ => true
  | _ :: _, [] => false
  | a :: as, b :: bs => a == b && startsWithChars as bs

def hasSub (needle : List Char) : List Char → Bool
  | [] => startsWithChars needle []
  | c :: rest => startsWithChars needle (c :: rest) || hasSub needle rest

def hexDigitVal (c : Char) : Nat :=
  if 48 ≤ c.toNat ∧ c.toNat ≤ 57 then c.toNat - 48
  else if 97 ≤ c.toNat ∧ c.toNat ≤ 102 then c.toNat - 87
  else if 65 ≤ c.toNat ∧ c.toNat ≤ 70 then c.toNat - 55
  else 0

def parseHexNat (s : String) : Nat :=
  s.toList.foldl (fun acc c => 16 * acc + hexDigitVal c) 0

/-! ## Mode conversion (`src/utils.ts`, `convertEchoNetModeToHomeKit` /
`convertHomeKitModeToEchoNet`, and the corresponding switch statements in
`platform.ts` `getOperationMode` / `setOperationMode`)

HomeKit heating/cooling states are the enum `{OFF = 0, HEAT = 1, COOL = 2,
AUTO = 3}` from `types.ts`; EchoNet operation-mode bytes are
`0x41`..`0x45`. -/

inductive HomeKitHeatingCoolingState where
  | OFF
  | HEAT
  | COOL
  | AUTO
deriving DecidableEq, Fintype

def homeKitStateVal : HomeKitHeatingCoolingState → Nat
  | .OFF => 0
  | .HEAT => 1
  | .COOL => 2
  | .AUTO => 3

def convertHomeKitModeToEchoNet : HomeKitHeatingCoolingState → Nat
  | .AUTO => 0x41
  | .COOL => 0x42
  | .HEAT => 0x43
  | .OFF => 0x42

def convertEchoNetModeToHomeKit (mode : Nat) : HomeKitHeatingCoolingState :=
  if mode = 0x41 then .AUTO
  else if mode = 0x42 then .COOL
  else if mode = 0x43 then .HEAT
  else if mode = 0x44 then .COOL
  else if mode = 0x45 then .COOL
  else .COOL

/-- `platform.ts` `setOperationMode`: HomeKit numeric mode to the EchoNet
byte written on the wire (default branch writes Cool). -/
def platformSetModeByte (mode : Nat) : Nat :=
  if mode = 1 then 0x43
  else if mode = 2 then 0x42
  else if mode = 3 then 0x41
  else 0x42

/-- `platform.ts` `getOperationMode` response parser: EchoNet mode byte to
HomeKit numeric mode (default branch yields Off = 0). -/
def platformParseModeByte (mode : Nat) : Nat :=
  if mode = 0x41 then 3
  else if mode = 0x42 then 2
  else if mode = 0x43 then 1
  else if mode = 0x44 then 2
  else if mode = 0x45 then 2
  else 0

/-! ## Per-device throttling (`platform.ts` `sendEchoNetRequestDirect`,
lines 595-645, identical preamble in the multi-request and SET paths;
`REQUEST_TIMING.MIN_DEVICE_INTERVAL_MS` from the constants file)

`lastRequestTime` is a map from device key (`ip_eoj`) to the timestamp of
the last request sent to that device; absence reads as `0` (the
`|| 0` default in the source). The dispatcher sleeps the remainder of the
minimum interval and then records the post-sleep time as the new
last-request time. -/

def MIN_DEVICE_INTERVAL_MS : Nat := 800

def lastRequestOf (m : List (String × Nat)) (k : String) : Nat :=
  (m.lookup k).getD 0

def throttleWait (m : List (String × Nat)) (k : String) (now : Nat) : Nat :=
  let timeSinceLastRequest := now - lastRequestOf m k
  if timeSinceLastRequest < MIN_DEVICE_INTERVAL_MS then
    MIN_DEVICE_INTERVAL_MS - timeSinceLastRequest
  else 0

/-- One dispatched request: returns the actual send time (arrival time plus
throttle sleep) and the updated last-request-time map. -/
def dispatchSend (m : List (String × Nat)) (k : String) (now : Nat) :
    Nat × List (String × Nat) :=
  let sendTime := now + throttleWait m k now
  (sendTime, (k, sendTime) :: m)

/-! ## Pending-request ledger and reply matcher
(`platform.ts` `handleEchoNetLiteMessage`, lines 744-780, and the key
construction in `sendEchoNetRequestDirect` / `sendEchoNetSetRequestDirect` /
`sendEchoNetMultiRequestDirect`)

Every key inserted into `pendingRequests` is the string
`ip + "_" + eoj + "_" + epc + "_" + tag` (the tag being the timestamp plus a
random suffix for GETs, `"set_" + timestamp` for SETs, and so on), so a key
is modelled structurally by its four components; the source's
`key.includes(address + "_" + seoj + "_" + epc + "_")` test is then
component equality on the first three fields. The map itself is modelled as
an association list in insertion order (JavaScript `Map` iteration order),
with pairwise distinct keys. -/

structure ReqKey where
  ip : String
  eoj : String
  epc : String
  tag : String
deriving DecidableEq

structure DeviceRequest where
  timestamp : Nat
  ip : String
  eoj : String
  epc : String
deriving DecidableEq

/-- The matcher's filter: the stored request's fields must equal the
replying device's address, source object and EPC, and the key pattern must
embed the same triple (both checks appear in the source). -/
def keyMatches (addr seoj epc : String) (k : ReqKey) (r : DeviceRequest) : Bool :=
  r.ip == addr && r.eoj == seoj && r.epc == epc &&
    (k.ip == addr && k.eoj == seoj && k.epc == epc)

/-- The `for (const [key, request] of this.pendingRequests.entries())` scan:
keeps the entry with the greatest timestamp seen so far, starting from
`mostRecentRequest = null`, `mostRecentTime = 0`, replacing only on a
strictly greater timestamp. -/
def scanPending (addr seoj epc : String) :
    List (ReqKey × DeviceRequest) → Option (ReqKey × DeviceRequest) → Nat →
    Option (ReqKey × DeviceRequest)
  | [], best, _ => best
  | kr :: rest, best, bestTime =>
    if keyMatches addr seoj epc kr.1 kr.2 && decide (bestTime < kr.2.timestamp)
    then scanPending addr seoj epc rest (some kr) kr.2.timestamp
    else scanPending addr seoj epc rest best bestTime

/-- Handling of one `(epc, value)` pair of a GET_RES/SET_RES payload: find
the most recent matching pending entry, delete exactly that key from the
map, and report which entry was resolved. -/
def resolveReply (addr seoj epc : String)
    (pending : List (ReqKey × DeviceRequest)) :
    Option (ReqKey × DeviceRequest) × List (ReqKey × DeviceRequest) :=
  match scanPending addr seoj epc pending none 0 with
  | some kr => (some kr, pending.eraseP (fun x => x.1 == kr.1))
  | none => (none, pending)

/-! ## Request dispatcher (`platform.ts` `processRequestQueue`, lines
440-461, with submissions via `sendEchoNetRequest` /
`sendEchoNetSetRequest` / `sendEchoNetMultiRequest` / `pollDeviceState`)

The platform keeps one `requestQueue` array and one `isProcessingQueue`
flag. A submission appends a unit of work and calls `processRequestQueue`;
that function returns at once if the flag is set, otherwise sets the flag
and drains the queue one unit at a time, awaiting each unit (the wire send
happens when the unit runs) before shifting the next, and clears the flag
when the queue is empty. JavaScript is single threaded, so the
check-then-set of the flag is atomic; the interleaving of submissions,
drain entry/exit and unit start/finish is modelled by a step relation.
`drains` counts drain loops currently active and `running` counts units of
work currently in flight; `sent` records wire sends in order. -/

structure DispatchState where
  queue : List Nat
  processing : Bool
  drains : Nat
  running : Nat
  sent : List Nat
  submitted : List Nat
deriving DecidableEq

def dispatchInit : DispatchState := ⟨[], false, 0, 0, [], []⟩

inductive DStep : DispatchState → DispatchState → Prop where
  | submit (s : DispatchState) (u : Nat) :
      DStep s { s with queue := s.queue ++ [u], submitted := s.submitted ++ [u] }
  | enter (s : DispatchState) :
      s.processing = false → s.queue ≠ [] →
      DStep s { s with processing := true, drains := s.drains + 1 }
  | start (s : DispatchState) (u : Nat) (rest : List Nat) :
      s.running < s.drains → s.queue = u :: rest →
      DStep s { s with queue := rest, running := s.running + 1,
                       sent := s.sent ++ [u] }
  | finish (s : DispatchState) :
      0 < s.running → DStep s { s with running := s.running - 1 }
  | leave (s : DispatchState) :
      s.processing = true → s.queue = [] → s.running = 0 →
      DStep s { s with processing := false, drains := s.drains - 1 }

inductive DReachable : DispatchState → Prop where
  | init : DReachable dispatchInit
  | step {s t : DispatchState} : DReachable s → DStep s t → DReachable t

/-- The inductive invariant of the dispatcher: the `isProcessingQueue` flag
admits at most one active drain loop, each drain has at most one unit of
work awaited at a time, and the wire sends so far followed by the queued
units are exactly the submissions in order. -/
def dispatchInv (s : DispatchState) : Prop :=
  s.drains = (if s.processing then 1 else 0) ∧
  s.running ≤ s.drains ∧
  s.sent ++ s.queue = s.submitted

/-! ## The legacy `JobQueue` (`src/jobQueue.ts`)

The Eolia accessory serializes its property reads/writes through the
`JobQueue` class, which wraps the npm `queue` package. The constructor at
line 10 of `jobQueue.ts` passes `concurrency: 2`, so that queue starts up
to two jobs at once; `running` lists the jobs currently in flight. -/

def jobQueueConcurrency : Nat := 2

structure JobQueueState where
  jobs : List Nat
  running : List Nat
  done : List Nat
deriving DecidableEq

inductive JQStep : JobQueueState → JobQueueState → Prop where
  | start (s : JobQueueState) (j : Nat) (rest : List Nat) :
      s.jobs = j :: rest → s.running.length < jobQueueConcurrency →
      JQStep s ⟨rest, j :: s.running, s.done⟩
  | complete (s : JobQueueState) (j : Nat) :
      j ∈ s.running → JQStep s ⟨s.jobs, s.running.erase j, j :: s.done⟩

inductive JQReachable (s₀ : JobQueueState) : JobQueueState → Prop where
  | refl : JQReachable s₀ s₀
  | step {s t : JobQueueState} : JQReachable s₀ s → JQStep s t →
      JQReachable s₀ t

/-! ## Retry controller (`platform.ts` `isRetryableError` lines 847-853,
`calculateBackoffDelay` lines 856-861, `getMetricValue` lines 866-909,
`setMetricValue` lines 914-961)

Errors are their message texts (`error.message`); `isRetryableError`
checks two substrings. A GET timeout raises
`"Timeout waiting for response from <ip> for EPC <epc>"`
(`sendEchoNetRequestDirect`), a SET timeout raises
`"Timeout waiting for SET response from <ip> for EPC <epc>"`
(`sendEchoNetSetRequestDirect`), and the accessory's quick-timeout races
raise `"Quick timeout"`.

`getMetricValue`/`setMetricValue` loop `attempt = 0 .. maxRetries`; before
every attempt after the first they sleep `calculateBackoffDelay (attempt-1)`.
The loop is embedded as a recursion on the number of remaining attempts;
the attempt outcome is a function from the attempt index, and the model
returns the result, the number of attempts made and the list of backoff
delays slept. -/

abbrev ErrMsg := List Char

def isRetryableError (msg : ErrMsg) : Bool :=
  hasSub "Timeout waiting for response".toList msg ||
    hasSub "Quick timeout".toList msg

def getTimeoutMessage (ip epc : String) : ErrMsg :=
  ("Timeout waiting for response from " ++ ip ++ " for EPC " ++ epc).toList

def setTimeoutMessage (ip epc : String) : ErrMsg :=
  ("Timeout waiting for SET response from " ++ ip ++ " for EPC " ++ epc).toList

structure RetryConfig where
  maxRetries : Nat
  baseDelayMs : Nat
  maxDelayMs : Nat
deriving DecidableEq

def DEFAULT_RETRY_CONFIG : RetryConfig := ⟨5, 500, 8000⟩

def calculateBackoffDelay (cfg : RetryConfig) (attempt : Nat) : Nat :=
  min (cfg.baseDelayMs * 2 ^ attempt) cfg.maxDelayMs

def getMetricValueGo {V : Type} (cfg : RetryConfig)
    (op : Nat → Except ErrMsg V) (attempt : Nat) :
    Nat → Except ErrMsg V × Nat × List Nat
  | 0 =>
    match op attempt with
    | .ok v => (.ok v, 1, [])
    | .error e => (.error e, 1, [])
  | r + 1 =>
    match op attempt with
    | .ok v => (.ok v, 1, [])
    | .error e =>
      if isRetryableError e then
        let next := getMetricValueGo cfg op (attempt + 1) r
        (next.1, next.2.1 + 1, calculateBackoffDelay cfg attempt :: next.2.2)
      else (.error e, 1, [])

def getMetricValue {V : Type} (cfg : RetryConfig)
    (op : Nat → Except ErrMsg V) : Except ErrMsg V × Nat × List Nat :=
  getMetricValueGo cfg op 0 cfg.maxRetries

def setMetricValueGo (cfg : RetryConfig) (op : Nat → Except ErrMsg Unit)
    (attempt : Nat) : Nat → Except ErrMsg Unit × Nat × List Nat
  | 0 =>
    match op attempt with
    | .ok _ => (.ok (), 1, [])
    | .error e => (.error e, 1, [])
  | r + 1 =>
    match op attempt with
    | .ok _ => (.ok (), 1, [])
    | .error e =>
      if isRetryableError e then
        let next := setMetricValueGo cfg op (attempt + 1) r
        (next.1, next.2.1 + 1, calculateBackoffDelay cfg attempt :: next.2.2)
      else (.error e, 1, [])

def setMetricValue (cfg : RetryConfig) (op : Nat → Except ErrMsg Unit) :
    Except ErrMsg Unit × Nat × List Nat :=
  setMetricValueGo cfg op 0 cfg.maxRetries

/-! ## Batch requester (`platform.ts` `sendEchoNetMultiRequestDirect`,
lines 510-590)

The batch sends one multi-EPC GET, registering one pending entry per EPC,
all sharing one timestamp/random suffix. Each entry's resolve callback
adds the value to `expectedResults` and resolves the aggregate promise
once all EPCs are present. The shared 3-second timeout deletes the
entries still pending; if any were still pending it resolves the
aggregate with the partial `expectedResults` when nonempty, and rejects
it when empty. A JavaScript promise settles at most once, which the
`settled` field models. Replies reach the per-EPC entries through the
reply matcher; an execution is a sequence of per-EPC reply events
followed by the timeout firing. -/

structure MultiState (V : Type) where
  pending : List String
  results : List (String × V)
  settled : Option (Except Unit (List (String × V)))

inductive MEvent (V : Type) where
  | reply (epc : String) (v : V)
  | timeoutFire

/-- A reply for one EPC of the batch: if its entry is still pending it is
removed and the value recorded; the aggregate resolves once all `total`
EPCs have resolved. -/
def mreply {V : Type} (total : Nat) (s : MultiState V) (epc : String)
    (v : V) : MultiState V :=
  if epc ∈ s.pending then
    { pending := s.pending.erase epc,
      results := s.results ++ [(epc, v)],
      settled :=
        if s.settled.isSome then s.settled
        else if s.results.length + 1 = total
          then some (.ok (s.results ++ [(epc, v)]))
          else s.settled }
  else s

/-- The shared timeout: if entries are still pending they are deleted, and
the aggregate resolves with the partial results when nonempty, otherwise
rejects. -/
def mtimeout {V : Type} (s : MultiState V) : MultiState V :=
  if s.pending.isEmpty then s
  else
    { pending := [],
      results := s.results,
      settled :=
        if s.settled.isSome then s.settled
        else if s.results.isEmpty then some (.error ())
        else some (.ok s.results) }

def mstep {V : Type} (total : Nat) (s : MultiState V) : MEvent V → MultiState V
  | .reply epc v => mreply total s epc v
  | .timeoutFire => mtimeout s

def mrun {V : Type} (total : Nat) (s : MultiState V) (events : List (MEvent V)) :
    MultiState V :=
  events.foldl (mstep total) s

def minit {V : Type} (epcs : List String) : MultiState V := ⟨epcs, [], none⟩

/-! ## Value validity predicate (`platform.ts` `isValidEchoNetValue`,
lines 1393-1423)

Raw property values are hexadecimal strings; the predicate rejects the
protocol sentinels 0xFD (not set), 0xFE (out of range), 0xFF (undefined)
and per-EPC out-of-range values. The source lowercases the EPC before the
switch; the engine's EPC keys are already lowercase, which the model
assumes. The source's `hexValue >= 0` bounds are automatic over `Nat`. -/

def isValidEchoNetValue (value epc : String) : Bool :=
  let hexValue := parseHexNat value
  if hexValue == 0xFD then false
  else if hexValue == 0xFE then false
  else if hexValue == 0xFF then false
  else
    match epc with
    | "b3" => hexValue ≤ 50
    | "bb" => hexValue ≤ 125
    | "80" => hexValue == 0x30 || hexValue == 0x31
    | "b0" => hexValue == 0x41 || hexValue == 0x42 || hexValue == 0x43 ||
        hexValue == 0x44 || hexValue == 0x45
    | _ => true

/-! ## Device state cache writes (`platform.ts` `updateDeviceStateCache`
lines 1158-1167, `pollDeviceStateSequential` lines 1616-1657,
`initializeDeviceStateFromDevice` lines 1495-1526)

The per-device state cache maps EPC to raw hex value; it is modelled as an
association list where an insertion shadows the previous binding (the
lookup-relevant behavior of assignment into a `Record`). Polling writes
every returned value raw and records a change when it differs from the
cached one; initialization writes a returned value only when
`isValidEchoNetValue` accepts it. -/

def updateDeviceStateCache (cache : List (String × String))
    (epc value : String) : List (String × String) :=
  (epc, value) :: cache

/-- `pollDeviceStateSequential`: fold the multi-request results into the
cache, collecting into `changes` every EPC whose value differs from the
cached one; no validity check is applied. -/
def pollApplyResults (cache : List (String × String))
    (results : List (String × String)) :
    List (String × String) × List (String × String) :=
  results.foldl
    (fun st p =>
      let changes := if st.1.lookup p.1 ≠ some p.2 then st.2 ++ [p] else st.2
      (updateDeviceStateCache st.1 p.1 p.2, changes))
    (cache, [])

/-- `initializeDeviceStateFromDevice`: fold the multi-request results into
the cache, admitting a value only if `isValidEchoNetValue` accepts it. -/
def initApplyResults (cache : List (String × String))
    (results : List (String × String)) : List (String × String) :=
  results.foldl
    (fun st p =>
      if isValidEchoNetValue p.2 p.1 then updateDeviceStateCache st p.1 p.2
      else st)
    cache

/-- `platform.ts` `setOperationState` (lines 1064-1078): after the SET
succeeds, the device state cache entry for EPC 80 is overwritten with the
just-written value. -/
def setOperationStateCache (cache : List (String × String)) (isOn : Bool) :
    List (String × String) :=
  updateDeviceStateCache cache "80" (if isOn then "30" else "31")

/-! ## Accessory TTL read cache (accessory class `AirConditionerAccessory`:
`isCacheValid`, `getCurrentTemperature`, `getTargetTemperature`,
`getOperationStateAndMode`, `setTargetHeatingCoolingState`)

`lastUpdateTime` stores per-metric capture timestamps and `cacheTimeout`
is 2000ms; `isCacheValid` is `now - last < cacheTimeout`. An expired read
does not hit the wire immediately: it first consults the platform device
state cache (populated by polling/INF) and only issues a wire request when
no usable platform-cache entry exists; on wire failure the stale local
value is returned. -/

def cacheTimeoutMs : Nat := 2000

def isCacheValid (now last : Nat) : Bool := now - last < cacheTimeoutMs

structure ReadOutcome where
  value : Nat
  wireCall : Bool
deriving DecidableEq

/-- `getCurrentTemperature` (accessory): TTL-valid local cache first, then
the platform cache entry for EPC bb unless it is the sentinel "fd", then a
wire fetch (`platform.getCurrentTemperature` raced with a quick timeout),
falling back to the stale local value on failure. `wire` is the outcome of
that fetch; `wireCall` records whether a wire request was issued. -/
def getCurrentTemperatureRead (now last cachedVal : Nat)
    (platformCacheBB : Option String) (wire : Except ErrMsg Nat) :
    ReadOutcome :=
  if isCacheValid now last then ⟨cachedVal, false⟩
  else
    match platformCacheBB with
    | some h =>
      if h == "fd" then
        match wire with
        | .ok t => ⟨t, true⟩
        | .error _ => ⟨cachedVal, true⟩
      else ⟨parseHexNat h, false⟩
    | none =>
      match wire with
      | .ok t => ⟨t, true⟩
      | .error _ => ⟨cachedVal, true⟩

/-- `getTargetTemperature` (accessory): same shape as the current
temperature getter, over EPC b3. -/
def getTargetTemperatureRead (now last cachedVal : Nat)
    (platformCacheB3 : Option String) (wire : Except ErrMsg Nat) :
    ReadOutcome :=
  if isCacheValid now last then ⟨cachedVal, false⟩
  else
    match platformCacheB3 with
    | some h =>
      if h == "fd" then
        match wire with
        | .ok t => ⟨t, true⟩
        | .error _ => ⟨cachedVal, true⟩
      else ⟨parseHexNat h, false⟩
    | none =>
      match wire with
      | .ok t => ⟨t, true⟩
      | .error _ => ⟨cachedVal, true⟩

/-- `setTargetHeatingCoolingState` (accessory): after a successful SET it
refreshes the TTL timestamps of the operation state and its paired
operation mode to the current time. -/
structure AccessoryTtl where
  operationState : Nat
  operationMode : Nat
deriving DecidableEq

def setTargetStateStamps (now : Nat) : AccessoryTtl := ⟨now, now⟩

/-- `getOperationStateAndMode` (accessory), early return: while both TTL
entries are valid the state is answered from `airconStates` (the
optimistic target state) with no fetch; `none` means the getter falls
through to the platform cache / wire paths. -/
def getOperationStateAndModeCached (t : AccessoryTtl) (now targetState : Nat) :
    Option (Bool × Nat) :=
  if isCacheValid now t.operationState && isCacheValid now t.operationMode then
    some (decide (0 < targetState), targetState)
  else none

theorem scanPending_stable (addr seoj epc : String) (k₀ : ReqKey)
    (r₀ : DeviceRequest) :
    ∀ l : List (ReqKey × DeviceRequest),
    (∀ k r, (k, r) ∈ l → keyMatches addr seoj epc k r = true → k ≠ k₀ →
      r.timestamp < r₀.timestamp) →
    (∀ k r, (k, r) ∈ l → k = k₀ → r = r₀) →
    scanPending addr seoj epc l (some (k₀, r₀)) r₀.timestamp = some (k₀, r₀) := by
  intro l
  induction l with
  | nil => intro _ _; rfl
  | cons kr rest ih =>
    intro hmax hkeys
    by_cases hm : keyMatches addr seoj epc kr.1 kr.2 = true
    · have hts : ¬ (r₀.timestamp < kr.2.timestamp) := by
        by_cases hk : kr.1 = k₀
        · have := hkeys kr.1 kr.2 (List.mem_cons_self _ _) hk
          rw [this]
          omega
        · have := hmax kr.1 kr.2 (List.mem_cons_self _ _) hm hk
          omega
      have hcond : (keyMatches addr seoj epc kr.1 kr.2 &&
          decide (r₀.timestamp < kr.2.timestamp)) = false := by
        simp [hts]
      rw [scanPending, hcond]
      simp only [Bool.false_eq_true, if_false]
      exact ih (fun k r hmem => hmax k r (List.mem_cons_of_mem _ hmem))
        (fun k r hmem => hkeys k r (List.mem_cons_of_mem _ hmem))
    · have hcond : (keyMatches addr seoj epc kr.1 kr.2 &&
          decide (r₀.timestamp < kr.2.timestamp)) = false := by
        simp [hm]
      rw [scanPending, hcond]
      simp only [Bool.false_eq_true, if_false]
      exact ih (fun k r hmem => hmax k r (List.mem_cons_of_mem _ hmem))
        (fun k r hmem => hkeys k r (List.mem_cons_of_mem _ hmem))

theorem scanPending_finds (addr seoj epc : String) (k₀ : ReqKey)
    (r₀ : DeviceRequest) :
    ∀ (l : List (ReqKey × DeviceRequest)) (best : Option (ReqKey × DeviceRequest))
      (bestTime : Nat),
    (k₀, r₀) ∈ l →
    keyMatches addr seoj epc k₀ r₀ = true →
    bestTime < r₀.timestamp →
    (∀ k r, (k, r) ∈ l → keyMatches addr seoj epc k r = true → k ≠ k₀ →
      r.timestamp < r₀.timestamp) →
    (∀ k r, (k, r) ∈ l → k = k₀ → r = r₀) →
    scanPending addr seoj epc l best bestTime = some (k₀, r₀) := by
  intro l
  induction l with
  | nil => intro best bestTime hmem; exact absurd hmem (List.not_mem_nil _)
  | cons kr rest ih =>
    intro best bestTime hmem hmatch hbt hmax hkeys
    by_cases hk : kr = (k₀, r₀)
    · subst hk
      have hcond : (keyMatches addr seoj epc k₀ r₀ &&
          decide (bestTime < r₀.timestamp)) = true := by
        simp [hmatch, hbt]
      rw [scanPending, hcond]
      simp only [if_true]
      exact scanPending_stable addr seoj epc k₀ r₀ rest
        (fun k r hm => hmax k r (List.mem_cons_of_mem _ hm))
        (fun k r hm => hkeys k r (List.mem_cons_of_mem _ hm))
    · have hmem' : (k₀, r₀) ∈ rest := by
        rcases List.mem_cons.mp hmem with h | h
        · exact absurd h.symm hk
        · exact h
      have hkne : kr.1 ≠ k₀ := by
        intro hkeq
        have := hkeys kr.1 kr.2 (List.mem_cons_self _ _) hkeq
        exact hk (Prod.ext hkeq this)
      by_cases hcond : (keyMatches addr seoj epc kr.1 kr.2 &&
          decide (bestTime < kr.2.timestamp)) = true
      · rw [scanPending, hcond]
        simp only [if_true]
        have hmkr : keyMatches addr seoj epc kr.1 kr.2 = true := by
          have h2 := hcond
          simp only [Bool.and_eq_true] at h2
          exact h2.1
        have hlt : kr.2.timestamp < r₀.timestamp :=
          hmax kr.1 kr.2 (List.mem_cons_self _ _) hmkr hkne
        exact ih (some kr) kr.2.timestamp hmem' hmatch hlt
          (fun k r hm => hmax k r (List.mem_cons_of_mem _ hm))
          (fun k r hm => hkeys k r (List.mem_cons_of_mem _ hm))
      · rw [scanPending, if_neg hcond]
        exact ih best bestTime hmem' hmatch hbt
          (fun k r hm => hmax k r (List.mem_cons_of_mem _ hm))
          (fun k r hm => hkeys k r (List.mem_cons_of_mem _ hm))

theorem mem_eraseP_of_pred_false {α : Type} (p : α → Bool) (a : α) :
    ∀ l : List α, a ∈ l → p a = false → a ∈ l.eraseP p := by
  intro l
  induction l with
  | nil => intro h; exact absurd h (List.not_mem_nil _)
  | cons b rest ih =>
    intro hmem hpa
    rw [List.eraseP_cons]
    by_cases hb : p b = true
    · simp only [hb, cond_true]
      rcases List.mem_cons.mp hmem with h | h
      · subst h; rw [hpa] at hb; exact absurd hb (by simp)
      · exact h
    · simp only [Bool.not_eq_true] at hb
      simp only [hb, cond_false]
      rcases List.mem_cons.mp hmem with h | h
      · subst h; exact List.mem_cons_self _ _
      · exact List.mem_cons_of_mem _ (ih h hpa)

theorem dispatchInv_init : dispatchInv dispatchInit := by
  refine ⟨rfl, le_refl _, rfl⟩

theorem dispatchInv_step {s t : DispatchState} (hinv : dispatchInv s)
    (hst : DStep s t) : dispatchInv t := by
  obtain ⟨hd, hr, hq⟩ := hinv
  cases hst with
  | submit u =>
    refine ⟨hd, hr, ?_⟩
    dsimp only
    rw [← List.append_assoc, hq]
  | enter hpf hqne =>
    simp only [hpf, Bool.false_eq_true, if_false] at hd
    refine ⟨?_, ?_, hq⟩
    · dsimp only
      simp [hd]
    · dsimp only
      omega
  | start u rest hrun hqeq =>
    refine ⟨hd, ?_, ?_⟩
    · dsimp only
      omega
    · dsimp only
      rw [List.append_assoc]
      rw [hqeq] at hq
      simpa using hq
  | finish hrun =>
    refine ⟨hd, ?_, hq⟩
    dsimp only
    omega
  | leave hpt hqe hr0 =>
    simp only [hpt, if_true] at hd
    refine ⟨?_, ?_, hq⟩
    · dsimp only
      simp [hd]
    · dsimp only
      omega

theorem dispatchInv_reachable {s : DispatchState} (h : DReachable s) :
    dispatchInv s := by
  induction h with
  | init => exact dispatchInv_init
  | step _ hst ih => exact dispatchInv_step ih hst

theorem getMetricValueGo_all_timeout {V : Type} (cfg : RetryConfig)
    (op : Nat → Except ErrMsg V) (e : ErrMsg)
    (hop : ∀ i, op i = .error e) (hre : isRetryableError e = true) :
    ∀ r attempt, getMetricValueGo cfg op attempt r =
      (.error e, r + 1,
        (List.range r).map (fun k => calculateBackoffDelay cfg (attempt + k))) := by
  intro r
  induction r with
  | zero =>
    intro attempt
    rw [getMetricValueGo, hop attempt]
    rfl
  | succ r ih =>
    intro attempt
    rw [getMetricValueGo, hop attempt]
    simp only [hre, if_true, ih (attempt + 1)]
    refine Prod.ext rfl (Prod.ext rfl ?_)
    dsimp only
    rw [List.range_succ_eq_map]
    simp only [List.map_cons, List.map_map, Nat.add_zero]
    refine congrArg _ ?_
    refine List.map_congr_left ?_
    intro a _
    simp only [Function.comp]
    refine congrArg _ ?_
    omega

theorem mrun_replies {V : Type} (total : Nat) (f : String → V) :
    ∀ (R : List String) (s : MultiState V),
    R.Nodup → (∀ e ∈ R, e ∈ s.pending) → s.settled = none →
    s.pending ≠ [] → s.pending.Nodup →
    s.results.length + s.pending.length = total →
    ∃ P' : List String,
      mrun total s (R.map (fun e => MEvent.reply e (f e))) =
        ⟨P', s.results ++ R.map (fun e => (e, f e)),
          if R.length = s.pending.length
            then some (.ok (s.results ++ R.map (fun e => (e, f e))))
            else none⟩ ∧
      P'.length = s.pending.length - R.length := by
  intro R
  induction R with
  | nil =>
    intro s hRnd hsub hset hpne hpnd htot
    have hlen : s.pending.length ≠ 0 := by
      intro h0
      exact hpne (List.length_eq_zero.mp h0)
    refine ⟨s.pending, ?_, by simp⟩
    rw [List.map_nil, mrun, List.foldl_nil, List.map_nil, List.append_nil]
    rw [if_neg (by
      simp only [List.length_nil]
      intro h
      exact hlen h.symm)]
    cases s with
    | mk p r st =>
      simp only at hset ⊢
      rw [hset]
  | cons e R' ih =>
    intro s hRnd hsub hset hpne hpnd htot
    have hmem : e ∈ s.pending := hsub e (List.mem_cons_self _ _)
    have hplen : 1 ≤ s.pending.length := by
      cases hp : s.pending with
      | nil => exact absurd hp hpne
      | cons a l => simp [hp]
    have herase := List.length_erase_of_mem hmem
    rw [List.map_cons, mrun, List.foldl_cons]
    by_cases hone : s.pending.length = 1
    · obtain ⟨p, hp⟩ := List.length_eq_one.mp hone
      have hep : e = p := by
        rw [hp] at hmem
        simpa using hmem
      subst hep
      have hR' : R' = [] := by
        cases hR : R' with
        | nil => rfl
        | cons e' R'' =>
          have he' : e' ∈ s.pending := hsub e' (by rw [hR]; simp)
          rw [hp] at he'
          have he'e : e' = e := by simpa using he'
          rw [hR, he'e] at hRnd
          exact absurd (List.mem_cons_self e R'') (List.nodup_cons.mp hRnd).1
      have hstep : mstep total s (MEvent.reply e (f e)) =
          ⟨[], s.results ++ [(e, f e)], some (.ok (s.results ++ [(e, f e)]))⟩ := by
        rw [mstep, mreply, if_pos hmem, hset]
        simp only [Option.isSome_none, Bool.false_eq_true, if_false]
        rw [if_pos (by omega : s.results.length + 1 = total)]
        rw [hp]
        simp [List.erase_cons_head]
      rw [hstep, hR']
      refine ⟨[], ?_, by simp [hone]⟩
      rw [List.map_nil, List.foldl_nil]
      rw [if_pos (by simp [hone] : List.length [e] = s.pending.length)]
      simp
    · have hstep : mstep total s (MEvent.reply e (f e)) =
          ⟨s.pending.erase e, s.results ++ [(e, f e)], none⟩ := by
        rw [mstep, mreply, if_pos hmem, hset]
        simp only [Option.isSome_none, Bool.false_eq_true, if_false]
        rw [if_neg (by omega : ¬ (s.results.length + 1 = total))]
      rw [hstep]
      have hnd' := List.nodup_cons.mp hRnd
      obtain ⟨P', hrun, hlen⟩ := ih ⟨s.pending.erase e, s.results ++ [(e, f e)], none⟩
        hnd'.2
        (by
          intro e' he'
          have hne : e' ≠ e := by
            intro h
            rw [h] at he'
            exact hnd'.1 he'
          exact (List.mem_erase_of_ne hne).mpr (hsub e' (List.mem_cons_of_mem _ he')))
        rfl
        (by
          intro h0
          simp only at h0
          rw [h0] at herase
          simp only [List.length_nil] at herase
          omega)
        (hpnd.erase e)
        (by
          dsimp only
          simp only [List.length_append, List.length_singleton]
          omega)
      refine ⟨P', ?_, ?_⟩
      swap
      · dsimp only at hlen
        simp only [List.length_cons]
        omega
      rw [mrun] at hrun
      rw [hrun]
      have hres : (s.results ++ [(e, f e)]) ++ R'.map (fun x => (x, f x)) =
          s.results ++ (e :: R').map (fun x => (x, f x)) := by
        rw [List.map_cons, List.append_assoc]
        rfl
      simp only at hres ⊢
      by_cases hc : R'.length = (s.pending.erase e).length
      · have hc2 : (e :: R').length = s.pending.length := by
          simp only [List.length_cons]
          omega
        rw [if_pos hc, if_pos hc2, hres]
      · have hc2 : ¬ ((e :: R').length = s.pending.length) := by
          simp only [List.length_cons]
          omega
        rw [if_neg hc, if_neg hc2, hres]

/-- C5: For a batched multi-property GET over distinct EPCs `epcs`, with
the (distinct) subset `R` of them replying before the shared timeout: if
all of them reply, the aggregate future is already resolved with all
values when the timeout fires (and stays so); if a nonempty strict subset
replied, the timeout resolves the aggregate with exactly the replied
pairs — the missing EPCs are absent from the result list — and never
rejects; and if none replied, the timeout rejects the aggregate. -/
theorem batch_partial_resolution {V : Type} (epcs R : List String)
    (f : String → V) (hne : epcs ≠ []) (hnd : epcs.Nodup) (hRnd : R.Nodup)
    (hsub : ∀ e ∈ R, e ∈ epcs) :
    ((mrun epcs.length (minit epcs)
        (R.map (fun e => MEvent.reply e (f e)))).settled =
      if R.length = epcs.length
        then some (.ok (R.map (fun e => (e, f e))))
        else none) ∧
    ((mrun epcs.length (minit epcs)
        (R.map (fun e => MEvent.reply e (f e)) ++ [MEvent.timeoutFire])).settled =
      if R.isEmpty then some (.error ())
      else some (.ok (R.map (fun e => (e, f e))))) := by
  obtain ⟨P', hrun, hlen⟩ := mrun_replies epcs.length f R (minit epcs) hRnd
    (by intro e he; exact hsub e he) rfl hne hnd (by simp [minit])
  have hRle : R.length ≤ epcs.length := (hRnd.subperm hsub).length_le
  have hrun' : mrun epcs.length (minit epcs)
      (R.map (fun e => MEvent.reply e (f e))) =
      ⟨P', R.map (fun e => (e, f e)),
        if R.length = epcs.length
          then some (.ok (R.map (fun e => (e, f e))))
          else none⟩ := by
    rw [hrun]
    simp [minit]
  constructor
  · rw [hrun']
  · rw [mrun, List.foldl_append]
    rw [mrun] at hrun'
    rw [hrun']
    rw [List.foldl_cons, List.foldl_nil]
    simp only [minit] at hlen
    by_cases hfull : R.length = epcs.length
    · have hP : P' = [] := by
        have hP0 : P'.length = 0 := by omega
        exact List.length_eq_zero.mp hP0
      have hRne : R.isEmpty = false := by
        cases hR : R with
        | nil =>
          rw [hR] at hfull
          simp only [List.length_nil] at hfull
          have hepcs : epcs = [] := List.length_eq_zero.mp hfull.symm
          exact absurd hepcs hne
        | cons a l => rfl
      rw [if_pos hfull, mstep, mtimeout, hP]
      simp [hRne]
    · have hP : P'.isEmpty = false := by
        have h1 : 0 < P'.length := by omega
        cases hP2 : P' with
        | nil => rw [hP2] at h1; simp at h1
        | cons a l => rfl
      rw [if_neg hfull, mstep, mtimeout]
      simp only [hP, Bool.false_eq_true, if_false, Option.isSome_none]
      have hmapempty : (R.map (fun e => (e, f e))).isEmpty = R.isEmpty := by
        cases R with
        | nil => rfl
        | cons a l => rfl
      simp only [Bool.false_eq_true, if_false, hmapempty]

/-- Witness for C5: requesting {80, b0, b3} where only 80 and b0 reply
before the timeout resolves the aggregate with exactly those two pairs; a
run where nothing replies rejects. -/
theorem batch_partial_resolution_witness :
    (mrun 3 (minit ["80", "b0", "b3"])
        ([MEvent.reply "80" "30", MEvent.reply "b0" "42"] ++
          [MEvent.timeoutFire])).settled =
      some (.ok [("80", "30"), ("b0", "42")]) ∧
    (mrun 3 (minit ["80", "b0", "b3"])
        (([] : List (MEvent String)) ++ [MEvent.timeoutFire])).settled =
      some (.error ()) := by
  constructor
  · have h := (batch_partial_resolution (V := String) ["80", "b0", "b3"]
      ["80", "b0"] (fun e => if e = "80" then "30" else "42")
      (by decide) (by decide) (by decide) (by decide)).2
    have hev : (["80", "b0"].map
        (fun e => MEvent.reply e (if e = "80" then "30" else "42"))) =
        [MEvent.reply "80" "30", MEvent.reply "b0" "42"] := by
      simp
    rw [hev] at h
    have hlen : (["80", "b0", "b3"] : List String).length = 3 := rfl
    rw [hlen] at h
    rw [h]
    simp
  · have h := (batch_partial_resolution (V := String) ["80", "b0", "b3"]
      [] (fun e => e) (by decide) (by decide) (by decide) (by decide)).2
    simpa using h

/-- C3: A GET operation through the retry controller that fails with a
retryable timeout on every attempt is attempted exactly `maxRetries + 1`
times, the delay slept before retry attempt n (n = 1, ..., maxRetries,
sitting at index n-1 of the delay list) is
`min (baseDelayMs * 2 ^ (n-1)) maxDelayMs`, and the final error is the
last timeout; a non-retryable failure on the first attempt is propagated
unchanged with no further attempts and no backoff sleep. -/
theorem retry_bound_and_backoff {V : Type} (cfg : RetryConfig)
    (op : Nat → Except ErrMsg V) (e : ErrMsg) :
    ((∀ i, op i = .error e) → isRetryableError e = true →
      getMetricValue cfg op =
        (.error e, cfg.maxRetries + 1,
          (List.range cfg.maxRetries).map
            (fun k => min (cfg.baseDelayMs * 2 ^ k) cfg.maxDelayMs))) ∧
    (op 0 = .error e → isRetryableError e = false →
      getMetricValue cfg op = (.error e, 1, [])) := by
  constructor
  · intro hop hre
    rw [getMetricValue, getMetricValueGo_all_timeout cfg op e hop hre]
    simp only [Nat.zero_add]
    rfl
  · intro hop hre
    cases hmr : cfg.maxRetries with
    | zero =>
      rw [getMetricValue, hmr, getMetricValueGo, hop]
    | succ r =>
      rw [getMetricValue, hmr, getMetricValueGo, hop]
      simp [hre]

/-- Witness for C3: with maxRetries = 2, baseDelay = 500, maxDelay = 700,
an always-timing-out GET is attempted 3 times with delays 500 then
min(1000, 700) = 700, and a non-retryable error is returned after one
attempt. -/
theorem retry_bound_and_backoff_witness :
    getMetricValue (V := Unit) ⟨2, 500, 700⟩
        (fun _ => .error (getTimeoutMessage "ip" "80")) =
      (.error (getTimeoutMessage "ip" "80"), 3, [500, 700]) ∧
    getMetricValue (V := Unit) ⟨2, 500, 700⟩
        (fun _ => .error "bad reply".toList) =
      (.error "bad reply".toList, 1, []) := by
  constructor
  · have h := (retry_bound_and_backoff (V := Unit) ⟨2, 500, 700⟩
      (fun _ => .error (getTimeoutMessage "ip" "80"))
      (getTimeoutMessage "ip" "80")).1 (fun _ => rfl) (by decide)
    rw [h]
    rfl
  · exact (retry_bound_and_backoff (V := Unit) ⟨2, 500, 700⟩
      (fun _ => .error "bad reply".toList) "bad reply".toList).2 rfl (by decide)

/-- C4 (code bug): the claim — and the retry loop built into
`setMetricValue`, whose log messages announce SET retries on timeout —
expect a SET timeout to be classified retryable; but the SET path's
timeout message "Timeout waiting for SET response from ..." does not
contain the pattern "Timeout waiting for response" that `isRetryableError`
looks for (nor "Quick timeout"), so a SET that times out on every attempt
is classified non-retryable, attempted exactly once, and its error
surfaces immediately — while the corresponding GET timeout message is
retryable. -/
theorem set_timeout_not_retryable :
    isRetryableError (setTimeoutMessage "192.168.1.10" "80") = false ∧
    isRetryableError (getTimeoutMessage "192.168.1.10" "80") = true ∧
    setMetricValue DEFAULT_RETRY_CONFIG
        (fun _ => .error (setTimeoutMessage "192.168.1.10" "80")) =
      (.error (setTimeoutMessage "192.168.1.10" "80"), 1, []) := by
  refine ⟨by decide, by decide, ?_⟩
  have h : isRetryableError (setTimeoutMessage "192.168.1.10" "80") = false := by
    decide
  rw [setMetricValue, DEFAULT_RETRY_CONFIG]
  rw [setMetricValueGo]
  simp [h]

/-- C2 counterexample: the claim says all units of work are executed with
concurrency 1, with at no point two units in flight; but `jobQueue.ts`
constructs its queue with `concurrency: 2`, so from a `JobQueue` holding
two submitted jobs the queue may start both, reaching a state with two
units of work in flight concurrently. -/
theorem jobqueue_two_in_flight :
    jobQueueConcurrency = 2 ∧
    JQReachable ⟨[1, 2], [], []⟩ ⟨[], [2, 1], []⟩ ∧
    ¬ (([2, 1] : List Nat).length ≤ 1) := by
  refine ⟨rfl, ?_, by decide⟩
  have h1 : JQStep ⟨[1, 2], [], []⟩ ⟨[2], [1], []⟩ :=
    JQStep.start _ 1 [2] rfl (by decide)
  have h2 : JQStep ⟨[2], [1], []⟩ ⟨[], [2, 1], []⟩ :=
    JQStep.start _ 2 [] rfl (by decide)
  exact JQReachable.step (JQReachable.step JQReachable.refl h1) h2

/-- C2 (amended): every unit of work submitted to the platform's request
queue (`processRequestQueue`) goes through a single serialization point
with concurrency 1 — in every reachable dispatcher state at most one unit
of work is in flight, the wire sends so far followed by the still-queued
units equal the submissions in order, and once the queue has drained the
sends are exactly the K submitted units in submission order. (The legacy
`JobQueue` of `jobQueue.ts` is excluded: it runs with concurrency 2.) -/
theorem dispatcher_serializes_in_order (s : DispatchState)
    (h : DReachable s) :
    s.running ≤ 1 ∧
    s.sent ++ s.queue = s.submitted ∧
    (s.queue = [] → s.sent = s.submitted) := by
  obtain ⟨hd, hr, hq⟩ := dispatchInv_reachable h
  refine ⟨?_, hq, ?_⟩
  · cases hp : s.processing with
    | true =>
      simp only [hp, if_true] at hd
      omega
    | false =>
      simp only [hp, Bool.false_eq_true, if_false] at hd
      omega
  · intro hqe
    rw [hqe] at hq
    simpa using hq

/-- Witness for C2 at a concrete trace: submit unit 7, enter the drain,
run it, finish, leave; the reached state has one send, in order. -/
theorem dispatcher_serializes_in_order_witness :
    DReachable ⟨[], false, 0, 0, [7], [7]⟩ ∧
    (⟨[], false, 0, 0, [7], [7]⟩ : DispatchState).running ≤ 1 ∧
    (⟨[], false, 0, 0, [7], [7]⟩ : DispatchState).sent =
      (⟨[], false, 0, 0, [7], [7]⟩ : DispatchState).submitted := by
  have t1 : DStep dispatchInit ⟨[7], false, 0, 0, [], [7]⟩ :=
    DStep.submit dispatchInit 7
  have t2 : DStep ⟨[7], false, 0, 0, [], [7]⟩ ⟨[7], true, 1, 0, [], [7]⟩ :=
    DStep.enter _ rfl (by decide)
  have t3 : DStep ⟨[7], true, 1, 0, [], [7]⟩ ⟨[], true, 1, 1, [7], [7]⟩ :=
    DStep.start _ 7 [] (by decide) rfl
  have t4 : DStep ⟨[], true, 1, 1, [7], [7]⟩ ⟨[], true, 1, 0, [7], [7]⟩ :=
    DStep.finish _ (by decide)
  have t5 : DStep ⟨[], true, 1, 0, [7], [7]⟩ ⟨[], false, 0, 0, [7], [7]⟩ :=
    DStep.leave _ rfl rfl rfl
  have hreach : DReachable ⟨[], false, 0, 0, [7], [7]⟩ :=
    DReachable.step (DReachable.step (DReachable.step
      (DReachable.step (DReachable.step DReachable.init t1) t2) t3) t4) t5
  refine ⟨hreach, (dispatcher_serializes_in_order _ hreach).1, ?_⟩
  exact (dispatcher_serializes_in_order _ hreach).2.2 rfl

/-- C1: When a GET or SET reply for a device and property arrives, the
reply matcher resolves exactly the pending entry with the greatest
submission timestamp whose key embeds that device+property, removes only
that entry from the pending-request map, and every other entry — in
particular every older entry for the same device+property — remains
pending. (Hypotheses: the matching entry `(k₀, r₀)` has a positive
timestamp strictly greater than that of every other matching entry, and
keys are unique as in a JavaScript `Map`.) -/
theorem reply_matcher_most_recent_wins (addr seoj epc : String)
    (pending : List (ReqKey × DeviceRequest)) (k₀ : ReqKey) (r₀ : DeviceRequest)
    (hmem : (k₀, r₀) ∈ pending)
    (hmatch : keyMatches addr seoj epc k₀ r₀ = true)
    (hpos : 0 < r₀.timestamp)
    (hmax : ∀ k r, (k, r) ∈ pending → keyMatches addr seoj epc k r = true →
      k ≠ k₀ → r.timestamp < r₀.timestamp)
    (hkeys : ∀ k r, (k, r) ∈ pending → k = k₀ → r = r₀) :
    (resolveReply addr seoj epc pending).1 = some (k₀, r₀) ∧
    (resolveReply addr seoj epc pending).2 =
      pending.eraseP (fun x => x.1 == k₀) ∧
    (∀ k r, (k, r) ∈ pending → k ≠ k₀ →
      (k, r) ∈ (resolveReply addr seoj epc pending).2) := by
  have hscan : scanPending addr seoj epc pending none 0 = some (k₀, r₀) :=
    scanPending_finds addr seoj epc k₀ r₀ pending none 0 hmem hmatch hpos hmax hkeys
  have hres : resolveReply addr seoj epc pending =
      (some (k₀, r₀), pending.eraseP (fun x => x.1 == k₀)) := by
    rw [resolveReply, hscan]
  refine ⟨by rw [hres], by rw [hres], ?_⟩
  intro k r hkr hne
  rw [hres]
  exact mem_eraseP_of_pred_false _ _ pending hkr (by simpa using hne)

/-- Witness for C1: two outstanding GET requests for EPC 80 of the same
device, submitted at timestamps 100 and 200; the reply resolves the
timestamp-200 entry, and the timestamp-100 entry remains pending. -/
theorem reply_matcher_most_recent_wins_witness :
    (resolveReply "ip" "0130" "80"
        [(⟨"ip", "0130", "80", "100_aa"⟩, ⟨100, "ip", "0130", "80"⟩),
         (⟨"ip", "0130", "80", "200_bb"⟩, ⟨200, "ip", "0130", "80"⟩)]).1 =
      some (⟨"ip", "0130", "80", "200_bb"⟩, ⟨200, "ip", "0130", "80"⟩) ∧
    (⟨"ip", "0130", "80", "100_aa"⟩, (⟨100, "ip", "0130", "80"⟩ : DeviceRequest)) ∈
      (resolveReply "ip" "0130" "80"
        [(⟨"ip", "0130", "80", "100_aa"⟩, ⟨100, "ip", "0130", "80"⟩),
         (⟨"ip", "0130", "80", "200_bb"⟩, ⟨200, "ip", "0130", "80"⟩)]).2 := by
  have h := reply_matcher_most_recent_wins "ip" "0130" "80"
    [(⟨"ip", "0130", "80", "100_aa"⟩, ⟨100, "ip", "0130", "80"⟩),
     (⟨"ip", "0130", "80", "200_bb"⟩, ⟨200, "ip", "0130", "80"⟩)]
    ⟨"ip", "0130", "80", "200_bb"⟩ ⟨200, "ip", "0130", "80"⟩
    (by simp) (by decide) (by decide)
    (by
      intro k r hkr hm hne
      simp only [List.mem_cons, List.not_mem_nil, or_false, Prod.mk.injEq] at hkr
      rcases hkr with ⟨rfl, rfl⟩ | ⟨rfl, rfl⟩
      · decide
      · exact absurd rfl hne)
    (by
      intro k r hkr hk
      simp only [List.mem_cons, List.not_mem_nil, or_false, Prod.mk.injEq] at hkr
      rcases hkr with ⟨rfl, rfl⟩ | ⟨rfl, rfl⟩
      · exact absurd hk (by decide)
      · rfl)
  exact ⟨h.1, h.2.2 _ _ (by simp) (by decide)⟩

/-- C10: The HomeKit/EchoNet mode conversion round-trip is the identity
exactly on HEAT, COOL and AUTO; HomeKit OFF converts to the EchoNet Cool
byte 0x42 and round-trips to COOL; EchoNet Dry (0x44) and Fan (0x45) both
map to HomeKit COOL, so the EchoNet-to-HomeKit direction is not injective.
The platform-level switch statements agree: set-then-parse is the identity
on modes 1, 2, 3 and sends 0 to 2 (Cool). -/
theorem mode_roundtrip_exactly_on_heat_cool_auto :
    (∀ m : HomeKitHeatingCoolingState,
      convertEchoNetModeToHomeKit (convertHomeKitModeToEchoNet m) = m ↔
        m ≠ HomeKitHeatingCoolingState.OFF) ∧
    convertHomeKitModeToEchoNet .OFF = 0x42 ∧
    convertEchoNetModeToHomeKit (convertHomeKitModeToEchoNet .OFF) = .COOL ∧
    convertEchoNetModeToHomeKit 0x44 = .COOL ∧
    convertEchoNetModeToHomeKit 0x45 = .COOL ∧
    ¬ Function.Injective convertEchoNetModeToHomeKit ∧
    platformParseModeByte (platformSetModeByte 1) = 1 ∧
    platformParseModeByte (platformSetModeByte 2) = 2 ∧
    platformParseModeByte (platformSetModeByte 3) = 3 ∧
    platformParseModeByte (platformSetModeByte 0) = 2 := by
  refine ⟨by decide, rfl, rfl, rfl, rfl, ?_, rfl, rfl, rfl, rfl⟩
  intro h
  have h68 : convertEchoNetModeToHomeKit 0x44 = convertEchoNetModeToHomeKit 0x45 := rfl
  have := h h68
  omega

/-- C6: If a request to device `k` is dispatched at `t₂`, less than 800ms
after the previous send to `k` at `t₁`, the dispatcher sleeps the remainder
so the send happens exactly at `t₁ + 800` (hence the two sends are at least
800ms apart); if at least 800ms have elapsed it sends immediately; the send
time is recorded as the device's new last-request time; and a send to one
device never changes the throttle wait of a different device. -/
theorem throttle_min_interval (m : List (String × Nat)) (k k' : String)
    (t₁ t₂ : Nat) (h₁ : lastRequestOf m k = t₁) (hle : t₁ ≤ t₂) :
    (t₂ - t₁ < 800 → (dispatchSend m k t₂).1 = t₁ + 800) ∧
    (800 ≤ (dispatchSend m k t₂).1 - t₁) ∧
    (800 ≤ t₂ - t₁ → (dispatchSend m k t₂).1 = t₂) ∧
    lastRequestOf (dispatchSend m k t₂).2 k = (dispatchSend m k t₂).1 ∧
    (k' ≠ k → ∀ now, throttleWait (dispatchSend m k t₂).2 k' now =
      throttleWait m k' now) := by
  have hsend : (dispatchSend m k t₂).1 = t₂ + throttleWait m k t₂ := rfl
  have hwait : throttleWait m k t₂ =
      if t₂ - t₁ < MIN_DEVICE_INTERVAL_MS then MIN_DEVICE_INTERVAL_MS - (t₂ - t₁)
      else 0 := by
    simp [throttleWait, h₁]
  refine ⟨?_, ?_, ?_, ?_, ?_⟩
  · intro hlt
    rw [hsend, hwait]
    simp only [MIN_DEVICE_INTERVAL_MS] at *
    rw [if_pos hlt]
    omega
  · rw [hsend, hwait]
    simp only [MIN_DEVICE_INTERVAL_MS]
    by_cases hlt : t₂ - t₁ < 800
    · rw [if_pos hlt]; omega
    · rw [if_neg hlt]; omega
  · intro hge
    rw [hsend, hwait]
    simp only [MIN_DEVICE_INTERVAL_MS]
    rw [if_neg (by omega)]
    omega
  · simp [dispatchSend, lastRequestOf, List.lookup]
  · intro hne now
    have hbeq : (k' == k) = false := beq_eq_false_iff_ne.mpr hne
    have hlk : lastRequestOf (dispatchSend m k t₂).2 k' = lastRequestOf m k' := by
      simp only [dispatchSend, lastRequestOf, List.lookup, hbeq]
    simp [throttleWait, hlk]

/-- Witness for C6 at a concrete state: device "d" last served at 1000,
next request at 1500 (500ms later) is sent at 1800, and device "e" is
unaffected. -/
theorem throttle_min_interval_witness :
    lastRequestOf [("d", 1000)] "d" = 1000 ∧ (1000 : Nat) ≤ 1500 ∧
    (dispatchSend [("d", 1000)] "d" 1500).1 = 1800 ∧
    throttleWait (dispatchSend [("d", 1000)] "d" 1500).2 "e" 1600 =
      throttleWait [("d", 1000)] "e" 1600 := by
  refine ⟨rfl, by omega, ?_, ?_⟩
  · have h := (throttle_min_interval [("d", 1000)] "d" "e" 1000 1500 rfl
      (by omega)).1 (by omega)
    simpa using h
  · exact (throttle_min_interval [("d", 1000)] "d" "e" 1000 1500 rfl
      (by omega)).2.2.2.2 (by decide) 1600

/-- C7 counterexample: the claim says any read at time ≥ TTL after capture
triggers a wire call, but at 2000ms after capture (exactly the TTL) with
the platform device-state cache holding bb = "1a" the accessory getter
serves the platform-cache value 26 with no wire call. -/
theorem ttl_expired_read_without_wire_call :
    cacheTimeoutMs ≤ 2000 - 0 ∧
    getCurrentTemperatureRead 2000 0 20 (some "1a") (.ok 99) = ⟨26, false⟩ := by
  exact ⟨by decide, by decide⟩

/-- C7 (amended): a read strictly within the TTL is served from the local
cache with no wire call; a read at or past the TTL is never served the
expired local entry as valid — it is answered from the platform
device-state cache when that holds a non-sentinel entry (still without a
wire call), and only when no platform-cache entry exists (or it is the
sentinel "fd") is a wire call made. -/
theorem cache_ttl_read_behavior (now last cachedVal : Nat)
    (pc : Option String) (wire : Except ErrMsg Nat) :
    (now - last < cacheTimeoutMs →
      getCurrentTemperatureRead now last cachedVal pc wire = ⟨cachedVal, false⟩) ∧
    (cacheTimeoutMs ≤ now - last →
      (∀ h, pc = some h → (h == "fd") = false →
        getCurrentTemperatureRead now last cachedVal pc wire =
          ⟨parseHexNat h, false⟩) ∧
      (pc = none →
        (getCurrentTemperatureRead now last cachedVal pc wire).wireCall = true) ∧
      (pc = some "fd" →
        (getCurrentTemperatureRead now last cachedVal pc wire).wireCall = true)) := by
  have hvalid : isCacheValid now last = decide (now - last < cacheTimeoutMs) := rfl
  constructor
  · intro hlt
    rw [getCurrentTemperatureRead.eq_def, hvalid]
    simp [hlt]
  · intro hge
    have hnot : ¬ (now - last < cacheTimeoutMs) := by omega
    refine ⟨?_, ?_, ?_⟩
    · intro h hpc hfd
      rw [getCurrentTemperatureRead.eq_def, hvalid, hpc]
      simp [hnot, hfd]
    · intro hpc
      rw [getCurrentTemperatureRead.eq_def, hvalid, hpc]
      rw [if_neg (by simpa using hnot)]
      cases wire with
      | ok t => rfl
      | error e => rfl
    · intro hpc
      rw [getCurrentTemperatureRead.eq_def, hvalid, hpc]
      rw [if_neg (by simpa using hnot)]
      cases wire with
      | ok t => rfl
      | error e => rfl

/-- Witness for C7 (amended) at concrete inputs: a read 100ms after
capture is cache-served; a read 2000ms after capture with no platform
cache entry makes a wire call. -/
theorem cache_ttl_read_behavior_witness :
    getCurrentTemperatureRead 100 0 20 none (.ok 25) = ⟨20, false⟩ ∧
    (getCurrentTemperatureRead 2000 0 20 none (.ok 25)).wireCall = true := by
  constructor
  · exact (cache_ttl_read_behavior 100 0 20 none (.ok 25)).1 (by decide)
  · exact ((cache_ttl_read_behavior 2000 0 20 none (.ok 25)).2
      (by decide)).2.1 rfl

/-- C8 counterexample: the claim says a successful SET on a property
removes its cache entry so the next GET must fetch fresh; but after a
successful SET of the power status the cache entry for EPC 80 is present
(overwritten with the just-written value "30", not removed), and a GET
100ms later is answered from the accessory's refreshed TTL cache with no
fetch. -/
theorem set_keeps_cache_entry :
    (setOperationStateCache [("80", "31")] true).lookup "80" = some "30" ∧
    getOperationStateAndModeCached (setTargetStateStamps 5000) 5100 2 =
      some (true, 2) := by
  exact ⟨rfl, by decide⟩

/-- C8 (amended): after a successful SET on the power status the cache
entry for EPC 80 is overwritten with the optimistic post-SET value (never
a pre-SET value), the accessory refreshes the TTL timestamps of the
operation state and its paired operation mode, and a GET within the TTL is
served that post-SET value from cache rather than fetching fresh. -/
theorem set_optimistic_cache_update (cache : List (String × String))
    (isOn : Bool) (t₀ now target : Nat) (h : now - t₀ < cacheTimeoutMs) :
    (setOperationStateCache cache isOn).lookup "80" =
      some (if isOn then "30" else "31") ∧
    getOperationStateAndModeCached (setTargetStateStamps t₀) now target =
      some (decide (0 < target), target) := by
  constructor
  · rw [setOperationStateCache, updateDeviceStateCache]
    simp [List.lookup]
  · rw [getOperationStateAndModeCached, setTargetStateStamps]
    have hv : isCacheValid now t₀ = true := by
      rw [isCacheValid]
      simpa using h
    simp [hv]

/-- Witness for C8 (amended): SET power on over a cache holding "31";
the entry reads back "30" and a GET 500ms later is cache-served. -/
theorem set_optimistic_cache_update_witness :
    (setOperationStateCache [("80", "31")] true).lookup "80" = some "30" ∧
    getOperationStateAndModeCached (setTargetStateStamps 1000) 1500 1 =
      some (true, 1) := by
  have h := set_optimistic_cache_update [("80", "31")] true 1000 1500 1
    (by decide)
  exact ⟨h.1, h.2⟩

/-- C9 counterexample: the claim says every path writing raw values into
the device state cache admits a value only if the validity predicate
accepts it; but the polling path stores values unvalidated, so a sentinel
0xFD target-temperature poll result — rejected by `isValidEchoNetValue` —
replaces the prior valid cached value "1a". -/
theorem poll_stores_sentinel_value :
    isValidEchoNetValue "fd" "b3" = false ∧
    ((pollApplyResults [("b3", "1a")] [("b3", "fd")]).1).lookup "b3" =
      some "fd" := by
  exact ⟨by decide, by decide⟩

/-- C9 (amended): initialization writes are gated by `isValidEchoNetValue`
(results that are all invalid leave the cache unchanged), but the polling
path stores any returned raw value — valid or sentinel — into the device
state cache; the sentinel is instead filtered at read time: the
accessory's target-temperature getter refuses to serve "fd" from the
platform cache and, when the fresh wire fetch fails, keeps serving the
prior valid local value. -/
theorem validity_gating_per_path (cache : List (String × String))
    (results : List (String × String)) (now last cachedVal : Nat)
    (e : ErrMsg)
    (hall : ∀ p ∈ results, isValidEchoNetValue p.2 p.1 = false)
    (hexp : cacheTimeoutMs ≤ now - last) :
    initApplyResults cache results = cache ∧
    (∀ epc v, ((pollApplyResults cache [(epc, v)]).1).lookup epc = some v) ∧
    getTargetTemperatureRead now last cachedVal (some "fd") (.error e) =
      ⟨cachedVal, true⟩ := by
  refine ⟨?_, ?_, ?_⟩
  · induction results with
    | nil => rfl
    | cons p ps ih =>
      rw [initApplyResults, List.foldl_cons]
      rw [if_neg (by
        rw [hall p (List.mem_cons_self _ _)]
        simp)]
      exact ih (fun q hq => hall q (List.mem_cons_of_mem _ hq))
  · intro epc v
    rw [pollApplyResults, List.foldl_cons, List.foldl_nil]
    simp [updateDeviceStateCache, List.lookup]
  · rw [getTargetTemperatureRead.eq_def]
    have hnot : isCacheValid now last = false := by
      rw [isCacheValid]
      simp only [decide_eq_false_iff_not, not_lt]
      omega
    simp [hnot]

/-- Witness for C9 (amended): an all-sentinel initialization result set
leaves the cache unchanged, a poll write stores the raw sentinel, and a
target-temperature read over platform-cache "fd" with a failing fetch
keeps serving the prior value 26. -/
theorem validity_gating_per_path_witness :
    initApplyResults [("b3", "1a")] [("b3", "fd"), ("bb", "ff")] =
      [("b3", "1a")] ∧
    ((pollApplyResults [("b3", "1a")] [("b3", "fd")]).1).lookup "b3" =
      some "fd" ∧
    getTargetTemperatureRead 3000 0 26 (some "fd")
        (.error "Quick timeout".toList) = ⟨26, true⟩ := by
  have h := validity_gating_per_path [("b3", "1a")] [("b3", "fd"), ("bb", "ff")]
    3000 0 26 "Quick timeout".toList
    (by
      intro p hp
      simp only [List.mem_cons, List.not_mem_nil, or_false] at hp
      rcases hp with rfl | rfl
      · decide
      · decide)
    (by decide)
  exact ⟨h.1, h.2.1 "b3" "fd", h.2.2⟩

end EchoNetEngine
